import Mathlib

/-!
Verification development for the PFSimple `SimpleFinder` V0-reconstruction
engine (header `src/KFSimple/SimpleFinder.h`).  The header declares the
interface and gives inline bodies for the setters and getters; the remaining
method bodies are not part of the inspected sources, so the algorithmic
definitions below are modelled from the specification document, faithful to
its words, over exact rational arithmetic.  Distances, decay lengths and the
derived chi-square discriminators are represented through squared Euclidean
norms so that every quantity stays in ℚ.
-/

/-- A 3-vector of rational coordinates; models the float triples used for
positions and momenta. -/
structure Vec3 where
  x : ℚ
  y : ℚ
  z : ℚ
deriving DecidableEq

/-- Component-wise vector addition. -/
def vadd (a b : Vec3) : Vec3 := ⟨a.x + b.x, a.y + b.y, a.z + b.z⟩

/-- Component-wise vector subtraction. -/
def vsub (a b : Vec3) : Vec3 := ⟨a.x - b.x, a.y - b.y, a.z - b.z⟩

/-- Scalar multiplication of a vector. -/
def smul (c : ℚ) (a : Vec3) : Vec3 := ⟨c * a.x, c * a.y, c * a.z⟩

/-- Euclidean dot product. -/
def dot (a b : Vec3) : ℚ := a.x * b.x + a.y * b.y + a.z * b.z

/-- Squared Euclidean distance between two points. -/
def distSq (a b : Vec3) : ℚ := dot (vsub a b) (vsub a b)

/-- Number of recognized track species buckets (the `Constants.h` enumerant
`kNumberOfTrackTypes`; modelled as the four charge/vertex classes used by the
finder). -/
abbrev kNumberOfTrackTypes : Nat := 4

/-- Guard threshold below which a denominator counts as near-zero.
Modelled from the spec: "the propagator must not divide by a near-zero
denominator". -/
def eps : ℚ := 1 / 1000000000

/-- Defined-but-extreme discriminator value returned on numerically
degenerate geometry.  Modelled from the spec: degenerate input "produces a
defined-but-extreme discriminator value that the Cut Engine will naturally
reject". -/
def extremeDist : ℚ := 10 ^ 30

/-- One reconstructed charged track: straight-line state (position on the
trajectory and momentum direction), a scalar covariance summarizing the
measurement uncertainty, its charge, and the species hypothesis assigned to
it.  Models the per-track content of `KFPTrackVector`. -/
structure KFPTrack where
  pos : Vec3
  mom : Vec3
  cov : ℚ
  charge : ℤ
  species : Fin kNumberOfTrackTypes
deriving DecidableEq

instance : Inhabited KFPTrack := ⟨⟨⟨0, 0, 0⟩, ⟨0, 0, 0⟩, 0, 0, ⟨0, by decide⟩⟩⟩

/-- Primary vertex: a fixed reference point with position and a scalar
covariance.  Models `KFVertex`. -/
structure KFVertex where
  pos : Vec3
  cov : ℚ
deriving DecidableEq

/-- Daughter track parameters recalculated at the point of closest approach
(the `std::array<float, 8>` of position, momentum and energy terms; here
position and momentum). -/
structure DaughterPars where
  pos : Vec3
  mom : Vec3
deriving DecidableEq

/-- Composite mother particle state built from the daughters; models the
payload of `KFParticleSIMD` relevant to the finder. -/
structure KFParticleSIMD where
  pos : Vec3
  mom : Vec3
  cov : ℚ
  charge : ℤ
deriving DecidableEq

/-- Immutable snapshot of an accepted candidate: daughter indices and the
decay discriminators.  Models `OutputContainer`. -/
structure OutputContainer where
  id1 : ℕ
  id2 : ℕ
  chi2_prim_first : ℚ
  chi2_prim_second : ℚ
  distance : ℚ
  chi2_geo : ℚ
  l : ℚ
  ldl : ℚ
  chi2_topo : ℚ
deriving DecidableEq

/-- Modelled from the spec: `CutsContainer` (its source is not among the
inspected files).  "Cut Set: configuration mapping each discriminator name
(chi2-to-PV, chi2-geo, cos-topo, chi2-topo, decay-length-significance, etc.)
to an accept/reject threshold".  Minimum thresholds for the displacement
discriminators, maximum thresholds for the chi-square and distance ones. -/
structure CutsContainer where
  cut_chi2_prim : ℚ
  cut_distance : ℚ
  cut_chi2_geo : ℚ
  cut_l : ℚ
  cut_ldl : ℚ
  cut_chi2_topo : ℚ
deriving DecidableEq

/-- Modelled from the spec: `DecayContainer` (its source is not among the
inspected files).  "Decay Definition: configuration specifying the daughter
species"; the two-body channel searched by the finder. -/
structure DecayContainer where
  species_first : Fin kNumberOfTrackTypes
  species_second : Fin kNumberOfTrackTypes
deriving DecidableEq

/-- Modelled from the spec: `InputContainer` (its source is not among the
inspected files).  "A pre-packaged input bundle containing the same", i.e.
the track collection together with the primary vertex. -/
structure InputContainer where
  tracks : List KFPTrack
  pv : KFVertex
deriving DecidableEq

/-- Finder state, mirroring the member fields of `SimpleFinder`
(`SimpleFinder.h` lines 72-83).  The configuration fields are `Option`s so
that the state before `SetCuts`/`SetDecay` is representable, as the spec's
error-handling design requires. -/
structure SimpleFinder where
  tracks_ : List KFPTrack := []
  prim_vx_ : KFVertex := ⟨⟨0, 0, 0⟩, 0⟩
  trIndex_ : List (List ℕ) := List.replicate kNumberOfTrackTypes []
  cuts_ : Option CutsContainer := none
  decay_ : Option DecayContainer := none
  mass_ : ℚ := 0
  vec_mass_ : List ℚ := []
  vec_mother_ : List OutputContainer := []
deriving DecidableEq

/-- Denominator of the two-line closest-approach solution:
`(u·u)(v·v) - (u·v)²` for momentum directions `u`, `v`. -/
def pcaDenom (t1 t2 : KFPTrack) : ℚ :=
  dot t1.mom t1.mom * dot t2.mom t2.mom - dot t1.mom t2.mom * dot t1.mom t2.mom

/-- Line parameter of the first track at the pair's closest approach. -/
def sParam (t1 t2 : KFPTrack) : ℚ :=
  (dot t1.mom t2.mom * dot t2.mom (vsub t1.pos t2.pos) -
    dot t2.mom t2.mom * dot t1.mom (vsub t1.pos t2.pos)) / pcaDenom t1 t2

/-- Line parameter of the second track at the pair's closest approach. -/
def tParam (t1 t2 : KFPTrack) : ℚ :=
  (dot t1.mom t1.mom * dot t2.mom (vsub t1.pos t2.pos) -
    dot t1.mom t2.mom * dot t1.mom (vsub t1.pos t2.pos)) / pcaDenom t1 t2

/-- Position of the first daughter at the point of closest approach. -/
def pcaPoint1 (t1 t2 : KFPTrack) : Vec3 := vadd t1.pos (smul (sParam t1 t2) t1.mom)

/-- Position of the second daughter at the point of closest approach. -/
def pcaPoint2 (t1 t2 : KFPTrack) : Vec3 := vadd t2.pos (smul (tParam t1 t2) t2.mom)

/-- Modelled from the spec: `SimpleFinder::CalculateParamsInPCA` (body not
among the inspected files).  "Recalculates daughters tracks' parameters in
the point of their closest approach"; on a near-zero closest-approach
denominator (near-parallel tracks, zero-length momentum vectors) no division
is performed and the solution is reported as undefined, "yielding rejection
downstream". -/
def CalculateParamsInPCA (t1 t2 : KFPTrack) : Option (DaughterPars × DaughterPars) :=
  if pcaDenom t1 t2 < eps then none
  else some (⟨pcaPoint1 t1 t2, t1.mom⟩, ⟨pcaPoint2 t1 t2, t2.mom⟩)

/-- Modelled from the spec: `SimpleFinder::CalculateDistanceBetweenParticles`
(body not among the inspected files).  Squared distance between the daughter
tracks at their closest approach. -/
def CalculateDistanceBetweenParticles (pars1 pars2 : DaughterPars) : ℚ :=
  distSq pars1.pos pars2.pos

/-- Error-weighted combination of the two propagated daughter positions;
near-singular combined covariance falls back to the unweighted midpoint. -/
def motherPos (cov1 cov2 : ℚ) (p1 p2 : Vec3) : Vec3 :=
  if cov1 + cov2 < eps then smul (1 / 2) (vadd p1 p2)
  else smul (1 / (cov1 + cov2)) (vadd (smul cov2 p1) (smul cov1 p2))

/-- Composite state built from two propagated daughter states: error-weighted
vertex position, summed momentum, summed covariance and summed charge. -/
def mkMotherState (t1 t2 : KFPTrack) (p1 p2 : DaughterPars) : KFParticleSIMD :=
  { pos := motherPos t1.cov t2.cov p1.pos p2.pos
    mom := vadd p1.mom p2.mom
    cov := t1.cov + t2.cov
    charge := t1.charge + t2.charge }

/-- Modelled from the spec: `SimpleFinder::ConstructMother` (body not among
the inspected files).  "Creates mother particle as the KFParticleSIMD
object" from the daughters propagated to their closest approach; undefined
when the closest-approach solution is. -/
def ConstructMother (t1 t2 : KFPTrack) : Option KFParticleSIMD :=
  (CalculateParamsInPCA t1 t2).map (fun pp => mkMotherState t1 t2 pp.1 pp.2)

/-- Modelled from the spec: `SimpleFinder::CalculateChi2Geo` (body not among
the inspected files).  "Quantifies daughter-to-daughter consistency at the
reconstructed vertex, using the combined covariance": squared daughter
separation over the combined covariance, extreme on a singular combined
covariance. -/
def CalculateChi2Geo (pars1 pars2 : DaughterPars) (cov1 cov2 : ℚ) : ℚ :=
  if cov1 + cov2 < eps then extremeDist
  else CalculateDistanceBetweenParticles pars1 pars2 / (cov1 + cov2)

/-- Squared distance from point `p0` to the straight line through `pos` with
direction `mom`; a zero-length direction falls back to the plain point
distance instead of dividing by the vanishing norm. -/
def pointLineDistSq (p0 pos mom : Vec3) : ℚ :=
  if dot mom mom < eps then distSq p0 pos
  else distSq p0 pos - dot mom (vsub p0 pos) * dot mom (vsub p0 pos) / dot mom mom

/-- Chi-square of a straight-line state against a reference point: squared
point-to-line distance over the combined covariance, extreme when the
combined covariance is near-singular. -/
def chiSqToPoint (pos mom : Vec3) (covsum : ℚ) (p0 : Vec3) : ℚ :=
  if covsum < eps then extremeDist
  else pointLineDistSq p0 pos mom / covsum

/-- Modelled from the spec: `SimpleFinder::CalculateChiToPrimaryVertex`
(body not among the inspected files).  "Calculates chi2 of the track to the
primary vertex". -/
def CalculateChiToPrimaryVertex (track : KFPTrack) (pv : KFVertex) : ℚ :=
  chiSqToPoint track.pos track.mom (track.cov + pv.cov) pv.pos

/-- Modelled from the spec: `SimpleFinder::CalculateMotherProperties` (body
not among the inspected files).  "Calculates distance between primary and
secondary vertices with error and determines whether mother comes from the
PV": squared decay length, its significance against the combined covariance,
and the from-PV flag. -/
def CalculateMotherProperties (mother : KFParticleSIMD) (pv : KFVertex) : ℚ × ℚ × ℤ :=
  let l := distSq mother.pos pv.pos
  let ldl := if mother.cov + pv.cov < eps then 0 else l / (mother.cov + pv.cov)
  (l, ldl, if ldl ≤ 1 then 1 else 0)

/-- Modelled from the spec: `SimpleFinder::CalculateChi2Topo` (body not
among the inspected files).  "Calculates chi2 of the mother's track to the
PV". -/
def CalculateChi2Topo (mother : KFParticleSIMD) (pv : KFVertex) : ℚ :=
  chiSqToPoint mother.pos mother.mom (mother.cov + pv.cov) pv.pos

/-- List of the configured cut comparisons for one candidate, in evaluation
order.  Modelled from the spec: "Each discriminator from 4.4/4.5 is compared
against its configured threshold". -/
def cutChecks (c : CutsContainer) (o : OutputContainer) : List Bool :=
  [decide (c.cut_chi2_prim ≤ o.chi2_prim_first),
   decide (c.cut_chi2_prim ≤ o.chi2_prim_second),
   decide (o.distance ≤ c.cut_distance),
   decide (o.chi2_geo ≤ c.cut_chi2_geo),
   decide (c.cut_l ≤ o.l),
   decide (c.cut_ldl ≤ o.ldl),
   decide (o.chi2_topo ≤ c.cut_chi2_topo)]

/-- Cut Engine acceptance: "the candidate is accepted only if ALL configured
cuts pass (logical AND)". -/
def acceptsB (c : CutsContainer) (o : OutputContainer) : Bool :=
  (cutChecks c o).all id

/-- Pointwise loosening order on Cut Sets: every threshold moved (weakly) in
the direction that admits more candidates. -/
def LooserCuts (c c' : CutsContainer) : Prop :=
  c'.cut_chi2_prim ≤ c.cut_chi2_prim ∧ c.cut_distance ≤ c'.cut_distance ∧
  c.cut_chi2_geo ≤ c'.cut_chi2_geo ∧ c'.cut_l ≤ c.cut_l ∧
  c'.cut_ldl ≤ c.cut_ldl ∧ c.cut_chi2_topo ≤ c'.cut_chi2_topo

/-- Full evaluation of one daughter pair: propagation to the closest
approach, mother construction and all discriminators; on a degenerate
closest-approach solution the separation and chi-square discriminators take
the defined-but-extreme fallback value. -/
def evalPair (pv : KFVertex) (i j : ℕ) (t1 t2 : KFPTrack) : OutputContainer :=
  match CalculateParamsInPCA t1 t2 with
  | none =>
    { id1 := i, id2 := j
      chi2_prim_first := CalculateChiToPrimaryVertex t1 pv
      chi2_prim_second := CalculateChiToPrimaryVertex t2 pv
      distance := extremeDist, chi2_geo := extremeDist
      l := 0, ldl := 0, chi2_topo := extremeDist }
  | some pp =>
    let m := mkMotherState t1 t2 pp.1 pp.2
    let props := CalculateMotherProperties m pv
    { id1 := i, id2 := j
      chi2_prim_first := CalculateChiToPrimaryVertex t1 pv
      chi2_prim_second := CalculateChiToPrimaryVertex t2 pv
      distance := CalculateDistanceBetweenParticles pp.1 pp.2
      chi2_geo := CalculateChi2Geo pp.1 pp.2 t1.cov t2.cov
      l := props.1, ldl := props.2.1
      chi2_topo := CalculateChi2Topo m pv }

/-- Index bucket for one species: the input-ordered indices of the tracks
carrying that species hypothesis.  Modelled from the spec: "for each
recognized species, the ordered sequence of indices of tracks matching that
species hypothesis.  Ordering within a species follows input order". -/
def bucket (tracks : List KFPTrack) (sp : ℕ) : List ℕ :=
  (List.range tracks.length).filter (fun i => decide ((tracks.getD i default).species.val = sp))

/-- Modelled from the spec: the Track Index built by
`SimpleFinder::SortTracks` (body not among the inspected files), one bucket
per recognized species. -/
def sortTracksIndex (tracks : List KFPTrack) : List (List ℕ) :=
  (List.range kNumberOfTrackTypes).map (fun sp => bucket tracks sp)

/-- Bucket lookup in the stored Track Index. -/
def trIndexGet (idx : List (List ℕ)) (sp : Fin kNumberOfTrackTypes) : List ℕ :=
  idx.getD sp.val []

/-- Modelled from the spec: `SimpleFinder::SortTracks` (body not among the
inspected files), rebuilding the Track Index from the loaded collection. -/
def SortTracks (s : SimpleFinder) : SimpleFinder :=
  { s with trIndex_ := sortTracksIndex s.tracks_ }

/-- Modelled from the spec: `SimpleFinder::Init(tracks, pv)` (body not among
the inspected files).  "Initialize SimpleFinder object with PV and set of
tracks of the current event"; resets the per-event state (track view,
primary vertex, Track Index, debug masses, result list) and keeps the
configuration. -/
def Init (s : SimpleFinder) (tracks : List KFPTrack) (pv : KFVertex) : SimpleFinder :=
  { s with tracks_ := tracks, prim_vx_ := pv, trIndex_ := sortTracksIndex tracks
           mass_ := 0, vec_mass_ := [], vec_mother_ := [] }

/-- Modelled from the spec: `SimpleFinder::Init(input)` (body not among the
inspected files), the bundled-input overload unpacking the same data. -/
def InitFromContainer (s : SimpleFinder) (input : InputContainer) : SimpleFinder :=
  { s with tracks_ := input.tracks, prim_vx_ := input.pv
           trIndex_ := sortTracksIndex input.tracks
           mass_ := 0, vec_mass_ := [], vec_mother_ := [] }

/-- Inline body from `SimpleFinder.h` line 46: `cuts_ = cuts`. -/
def SetCuts (s : SimpleFinder) (cuts : CutsContainer) : SimpleFinder :=
  { s with cuts_ := some cuts }

/-- Inline body from `SimpleFinder.h` line 47: `decay_ = decay`. -/
def SetDecay (s : SimpleFinder) (decay : DecayContainer) : SimpleFinder :=
  { s with decay_ := some decay }

/-- Inline body from `SimpleFinder.h` line 44: read access to the
accumulated mother-candidate list. -/
def GetMotherCandidates (s : SimpleFinder) : List OutputContainer := s.vec_mother_

/-- Inline body from `SimpleFinder.h` line 40: read access to the track
collection view. -/
def GetTracks (s : SimpleFinder) : List KFPTrack := s.tracks_

/-- Inline body from `SimpleFinder.h` line 42: read access to the debug mass
list. -/
def GetMass (s : SimpleFinder) : List ℚ := s.vec_mass_

/-- Modelled from the spec: `SimpleFinder::SaveParticle` (body not among the
inspected files).  "Appends each accepted candidate's Output Record to the
per-event result list; preserves discovery order". -/
def SaveParticle (s : SimpleFinder) (lambda : OutputContainer) : SimpleFinder :=
  { s with vec_mother_ := s.vec_mother_ ++ [lambda] }

/-- Combinatorial search over the species buckets of the Decay Definition:
evaluates every daughter pair and keeps exactly the candidates accepted by
the Cut Engine, in discovery order. -/
def findCandidates (tracks : List KFPTrack) (pv : KFVertex) (idx : List (List ℕ))
    (d : DecayContainer) (c : CutsContainer) : List OutputContainer :=
  (trIndexGet idx d.species_first).flatMap (fun i =>
    (trIndexGet idx d.species_second).filterMap (fun j =>
      let o := evalPair pv i j (tracks.getD i default) (tracks.getD j default)
      if acceptsB c o then some o else none))

/-- Failure message of a pass started without configuration. -/
def configAbsentMsg : String := "decay definition or cut set not supplied"

/-- Modelled from the spec: `SimpleFinder::FindParticles` (body not among
the inspected files).  A pass refuses to run without a Decay Definition and
a Cut Set ("it should signal failure rather than proceed with undefined
cuts"); otherwise it appends every accepted candidate to the result list via
`SaveParticle`. -/
def FindParticles (s : SimpleFinder) : Except String SimpleFinder :=
  match s.decay_, s.cuts_ with
  | some d, some c =>
    Except.ok ((findCandidates s.tracks_ s.prim_vx_ s.trIndex_ d c).foldl SaveParticle s)
  | _, _ => Except.error configAbsentMsg

/-- Concrete primary vertex used in the evaluation examples. -/
def pv0 : KFVertex := ⟨⟨0, 0, 0⟩, 1⟩

/-- Concrete positive daughter track: species 0, passing through (0,0,1)
along x. -/
def trackP : KFPTrack := ⟨⟨0, 0, 1⟩, ⟨1, 0, 0⟩, 1, 1, ⟨0, by decide⟩⟩

/-- Concrete negative daughter track: species 1, passing through (0,0,1)
along y; intersects `trackP` at (0,0,1). -/
def trackQ : KFPTrack := ⟨⟨0, 0, 1⟩, ⟨0, 1, 0⟩, 1, -1, ⟨1, by decide⟩⟩

/-- Concrete track parallel to `trackP`, for the degenerate-geometry
examples. -/
def trackR : KFPTrack := ⟨⟨0, 1, 0⟩, ⟨1, 0, 0⟩, 1, -1, ⟨1, by decide⟩⟩

/-- Concrete Cut Set accepting the `trackP`/`trackQ` candidate. -/
def cuts0 : CutsContainer := ⟨0, 1, 1, 0, 0, 1⟩

/-- Concrete Decay Definition pairing species 0 with species 1. -/
def decay0 : DecayContainer := ⟨⟨0, by decide⟩, ⟨1, by decide⟩⟩

/-- Fully configured finder holding the intersecting track pair. -/
def finder0 : SimpleFinder :=
  SetDecay (SetCuts (Init {} [trackP, trackQ] pv0) cuts0) decay0

/-- Output record of the accepted `trackP`/`trackQ` candidate. -/
def out0 : OutputContainer :=
  ⟨0, 1, 1/2, 1/2, 0, 0, 1, 1/3, 1/3⟩

/-- Configured finder whose event has no track of the first daughter
species. -/
def finder1 : SimpleFinder :=
  SetDecay (SetCuts (Init {} [trackQ] pv0) cuts0) decay0

/-- Initialized but unconfigured finder (no Decay Definition, no Cut
Set). -/
def finder2 : SimpleFinder := Init {} [trackP, trackQ] pv0

theorem vec_add_comm (a b : Vec3) : vadd a b = vadd b a := by
  simp only [vadd, Vec3.mk.injEq]
  refine ⟨by ring, by ring, by ring⟩

theorem dot_swap (a b : Vec3) : dot a b = dot b a := by
  simp only [dot]; ring

theorem distSq_swap (a b : Vec3) : distSq a b = distSq b a := by
  simp only [distSq, dot, vsub]; ring

theorem pcaDenom_swap (t1 t2 : KFPTrack) : pcaDenom t2 t1 = pcaDenom t1 t2 := by
  simp only [pcaDenom, dot]; ring

theorem sParam_swap (t1 t2 : KFPTrack) : sParam t2 t1 = tParam t1 t2 := by
  unfold sParam tParam
  rw [pcaDenom_swap]
  congr 1
  simp only [dot, vsub]; ring

theorem tParam_swap (t1 t2 : KFPTrack) : tParam t2 t1 = sParam t1 t2 := by
  unfold sParam tParam
  rw [pcaDenom_swap]
  congr 1
  simp only [dot, vsub]; ring

theorem pcaPoint1_swap (t1 t2 : KFPTrack) : pcaPoint1 t2 t1 = pcaPoint2 t1 t2 := by
  unfold pcaPoint1 pcaPoint2
  rw [sParam_swap]

theorem pcaPoint2_swap (t1 t2 : KFPTrack) : pcaPoint2 t2 t1 = pcaPoint1 t1 t2 := by
  unfold pcaPoint1 pcaPoint2
  rw [tParam_swap]

theorem pca_swap (t1 t2 : KFPTrack) :
    CalculateParamsInPCA t2 t1 =
      (CalculateParamsInPCA t1 t2).map (fun pp => (pp.2, pp.1)) := by
  unfold CalculateParamsInPCA
  rw [pcaDenom_swap, pcaPoint1_swap t1 t2, pcaPoint2_swap t1 t2]
  by_cases h : pcaDenom t1 t2 < eps <;> simp [h]

theorem motherPos_swap (c1 c2 : ℚ) (p1 p2 : Vec3) :
    motherPos c2 c1 p2 p1 = motherPos c1 c2 p1 p2 := by
  unfold motherPos
  rw [add_comm c2 c1, vec_add_comm p2 p1, vec_add_comm (smul c1 p2) (smul c2 p1)]

theorem mkMotherState_swap (t1 t2 : KFPTrack) (p1 p2 : DaughterPars) :
    mkMotherState t2 t1 p2 p1 = mkMotherState t1 t2 p1 p2 := by
  simp only [mkMotherState, KFParticleSIMD.mk.injEq]
  exact ⟨motherPos_swap t1.cov t2.cov p1.pos p2.pos, vec_add_comm p2.mom p1.mom,
    add_comm t2.cov t1.cov, add_comm t2.charge t1.charge⟩

theorem constructMother_swap (t1 t2 : KFPTrack) :
    ConstructMother t2 t1 = ConstructMother t1 t2 := by
  unfold ConstructMother
  rw [pca_swap]
  cases CalculateParamsInPCA t1 t2 with
  | none => rfl
  | some pp => simp [mkMotherState_swap]

theorem chi2Geo_swap (p1 p2 : DaughterPars) (c1 c2 : ℚ) :
    CalculateChi2Geo p2 p1 c2 c1 = CalculateChi2Geo p1 p2 c1 c2 := by
  unfold CalculateChi2Geo CalculateDistanceBetweenParticles
  rw [add_comm c2 c1, distSq_swap]

/-- Claim C8: swapping the order in which the two daughter tracks are
supplied to the pair evaluation (closest-approach propagation and mother
construction) yields the same mother state and a candidate with the same
separation, chi-square, decay-length, significance and topological
chi-square discriminators. -/
theorem daughter_swap_symmetric (pv : KFVertex) (i j : ℕ) (t1 t2 : KFPTrack) :
    ConstructMother t2 t1 = ConstructMother t1 t2 ∧
    (evalPair pv j i t2 t1).distance = (evalPair pv i j t1 t2).distance ∧
    (evalPair pv j i t2 t1).chi2_geo = (evalPair pv i j t1 t2).chi2_geo ∧
    (evalPair pv j i t2 t1).l = (evalPair pv i j t1 t2).l ∧
    (evalPair pv j i t2 t1).ldl = (evalPair pv i j t1 t2).ldl ∧
    (evalPair pv j i t2 t1).chi2_topo = (evalPair pv i j t1 t2).chi2_topo := by
  refine ⟨constructMother_swap t1 t2, ?_⟩
  unfold evalPair
  rw [pca_swap t1 t2]
  cases h : CalculateParamsInPCA t1 t2 with
  | none => simp
  | some pp =>
    simp only [Option.map_some']
    simp only [mkMotherState_swap t1 t2 pp.1 pp.2]
    simp only [chi2Geo_swap pp.1 pp.2 t1.cov t2.cov]
    simp only [CalculateDistanceBetweenParticles, distSq_swap pp.1.pos pp.2.pos]
    simp

theorem foldl_SaveParticle (l : List OutputContainer) (s : SimpleFinder) :
    l.foldl SaveParticle s = { s with vec_mother_ := s.vec_mother_ ++ l } := by
  induction l generalizing s with
  | nil => simp
  | cons a l ih =>
    simp only [List.foldl_cons]
    rw [ih]
    simp [SaveParticle]

theorem findParticles_eq_ok (s : SimpleFinder) (d : DecayContainer) (c : CutsContainer)
    (hd : s.decay_ = some d) (hc : s.cuts_ = some c) :
    FindParticles s = Except.ok
      { s with vec_mother_ :=
          s.vec_mother_ ++ findCandidates s.tracks_ s.prim_vx_ s.trIndex_ d c } := by
  unfold FindParticles
  rw [hd, hc]
  simp [foldl_SaveParticle, hd, hc]

theorem mem_findCandidates (tracks : List KFPTrack) (pv : KFVertex) (idx : List (List ℕ))
    (d : DecayContainer) (c : CutsContainer) (o : OutputContainer) :
    o ∈ findCandidates tracks pv idx d c ↔
      ∃ i ∈ trIndexGet idx d.species_first, ∃ j ∈ trIndexGet idx d.species_second,
        evalPair pv i j (tracks.getD i default) (tracks.getD j default) = o ∧
        acceptsB c (evalPair pv i j (tracks.getD i default) (tracks.getD j default)) = true := by
  simp only [findCandidates, List.mem_flatMap, List.mem_filterMap]
  constructor
  · rintro ⟨i, hi, j, hj, hifeq⟩
    by_cases ha : acceptsB c (evalPair pv i j (tracks.getD i default) (tracks.getD j default)) = true
    · rw [if_pos ha] at hifeq
      exact ⟨i, hi, j, hj, Option.some.inj hifeq, ha⟩
    · rw [if_neg ha] at hifeq
      exact absurd hifeq (Option.noConfusion)
  · rintro ⟨i, hi, j, hj, heq, ha⟩
    exact ⟨i, hi, j, hj, by rw [if_pos ha, heq]⟩

theorem all_id_of_perm {l1 l2 : List Bool} (h : l1.Perm l2) : l1.all id = l2.all id := by
  induction h with
  | nil => rfl
  | cons a h ih => simp [List.all_cons, ih]
  | swap a b l => cases a <;> cases b <;> simp [List.all_cons]
  | trans h1 h2 ih1 ih2 => exact ih1.trans ih2

theorem acceptsB_mono (c c' : CutsContainer) (o : OutputContainer)
    (h : LooserCuts c c') (ha : acceptsB c o = true) : acceptsB c' o = true := by
  obtain ⟨h1, h2, h3, h4, h5, h6⟩ := h
  simp only [acceptsB, cutChecks, List.all_cons, List.all_nil, Bool.and_true, id_eq,
    Bool.and_eq_true, decide_eq_true_eq] at ha ⊢
  obtain ⟨a1, a2, a3, a4, a5, a6, a7⟩ := ha
  exact ⟨le_trans h1 a1, le_trans h1 a2, le_trans a3 h2, le_trans a4 h3,
    le_trans h4 a5, le_trans h5 a6, le_trans a7 h6⟩

theorem trIndexGet_sortTracksIndex (tracks : List KFPTrack) (sp : Fin kNumberOfTrackTypes) :
    trIndexGet (sortTracksIndex tracks) sp = bucket tracks sp.val := by
  fin_cases sp <;> rfl

theorem mem_bucket (tracks : List KFPTrack) (i sp : ℕ) :
    i ∈ bucket tracks sp ↔ i < tracks.length ∧ (tracks.getD i default).species.val = sp := by
  simp [bucket, List.mem_filter, List.mem_range]

theorem bucket_nodup (tracks : List KFPTrack) (sp : ℕ) : (bucket tracks sp).Nodup :=
  List.Nodup.filter _ (List.nodup_range _)

/-- Claim C1: a candidate evaluated during a `FindParticles` pass is appended
to the output record list if and only if every configured cut comparison is
satisfied, and the acceptance conjunction is independent of the order in
which the cut comparisons are evaluated. -/
theorem findParticles_accepts_iff_cuts (s : SimpleFinder) (d : DecayContainer)
    (c : CutsContainer) (s' : SimpleFinder)
    (hd : s.decay_ = some d) (hc : s.cuts_ = some c)
    (hrun : FindParticles s = Except.ok s') :
    (∀ o : OutputContainer,
      o ∈ GetMotherCandidates s' ↔
        o ∈ s.vec_mother_ ∨
          ∃ i ∈ trIndexGet s.trIndex_ d.species_first,
            ∃ j ∈ trIndexGet s.trIndex_ d.species_second,
              evalPair s.prim_vx_ i j (s.tracks_.getD i default) (s.tracks_.getD j default) = o ∧
              acceptsB c o = true) ∧
    (∀ (o : OutputContainer) (checks : List Bool), (cutChecks c o).Perm checks →
      acceptsB c o = checks.all id) := by
  have hok := findParticles_eq_ok s d c hd hc
  rw [hrun] at hok
  have hs' := Except.ok.inj hok
  constructor
  · intro o
    rw [hs']
    simp only [GetMotherCandidates]
    rw [List.mem_append, mem_findCandidates]
    constructor
    · rintro (h | ⟨i, hi, j, hj, heq, ha⟩)
      · exact Or.inl h
      · exact Or.inr ⟨i, hi, j, hj, heq, heq ▸ ha⟩
    · rintro (h | ⟨i, hi, j, hj, heq, ha⟩)
      · exact Or.inl h
      · exact Or.inr ⟨i, hi, j, hj, heq, heq.symm ▸ ha⟩
  · intro o checks hperm
    exact all_id_of_perm hperm

/-- Claim C2: `FindParticles` is deterministic; two finder states agreeing on
the track collection, primary vertex, Track Index, configuration and
accumulated result list produce identical ordered output record lists. -/
theorem findParticles_deterministic (s1 s2 : SimpleFinder)
    (htr : s1.tracks_ = s2.tracks_) (hpv : s1.prim_vx_ = s2.prim_vx_)
    (hix : s1.trIndex_ = s2.trIndex_) (hcu : s1.cuts_ = s2.cuts_)
    (hde : s1.decay_ = s2.decay_) (hvm : s1.vec_mother_ = s2.vec_mother_) :
    (FindParticles s1).map GetMotherCandidates =
      (FindParticles s2).map GetMotherCandidates := by
  unfold FindParticles
  rw [hde, hcu]
  cases hd2 : s2.decay_ with
  | none => rfl
  | some d =>
    cases hc2 : s2.cuts_ with
    | none => rfl
    | some c =>
      simp only [foldl_SaveParticle, Except.map, GetMotherCandidates]
      rw [htr, hpv, hix, hvm]

/-- Claim C3: after `SortTracks`, every track index of the collection appears
in exactly one species bucket of the Track Index, no bucket contains a
duplicate, and the union of the buckets is the full index set. -/
theorem sortTracks_index_partition (s : SimpleFinder) :
    (∀ sp : Fin kNumberOfTrackTypes, (trIndexGet (SortTracks s).trIndex_ sp).Nodup) ∧
    (∀ i : ℕ, i < s.tracks_.length ↔
      ∃ sp : Fin kNumberOfTrackTypes, i ∈ trIndexGet (SortTracks s).trIndex_ sp) ∧
    (∀ (i : ℕ) (sp sp' : Fin kNumberOfTrackTypes),
      i ∈ trIndexGet (SortTracks s).trIndex_ sp →
      i ∈ trIndexGet (SortTracks s).trIndex_ sp' → sp = sp') := by
  have hb : ∀ sp : Fin kNumberOfTrackTypes,
      trIndexGet (SortTracks s).trIndex_ sp = bucket s.tracks_ sp.val :=
    fun sp => trIndexGet_sortTracksIndex s.tracks_ sp
  refine ⟨?_, ?_, ?_⟩
  · intro sp
    rw [hb]
    exact bucket_nodup _ _
  · intro i
    constructor
    · intro hi
      refine ⟨(s.tracks_.getD i default).species, ?_⟩
      rw [hb, mem_bucket]
      exact ⟨hi, rfl⟩
    · rintro ⟨sp, hsp⟩
      rw [hb, mem_bucket] at hsp
      exact hsp.1
  · intro i sp sp' h1 h2
    rw [hb, mem_bucket] at h1 h2
    exact Fin.ext (h1.2.symm.trans h2.2)

/-- Claim C4: a pass started before any Decay Definition or Cut Set has been
supplied refuses to run: it reports the configuration-absence failure and
yields no result state. -/
theorem findParticles_unconfigured_fails (s : SimpleFinder)
    (h : s.decay_ = none ∨ s.cuts_ = none) :
    FindParticles s = Except.error configAbsentMsg ∧
    ∀ s' : SimpleFinder, FindParticles s ≠ Except.ok s' := by
  have herr : FindParticles s = Except.error configAbsentMsg := by
    unfold FindParticles
    rcases hd : s.decay_ with _ | d
    · rcases hc : s.cuts_ with _ | c <;> rfl
    · rcases hc : s.cuts_ with _ | c
      · rfl
      · rcases h with h | h
        · rw [hd] at h
          exact absurd h (by simp)
        · rw [hc] at h
          exact absurd h (by simp)
  refine ⟨herr, fun s' hcon => ?_⟩
  rw [herr] at hcon
  exact Except.noConfusion hcon

theorem acceptsB_false_of_distance (c : CutsContainer) (o : OutputContainer)
    (h : ¬ o.distance ≤ c.cut_distance) : acceptsB c o = false := by
  simp [acceptsB, cutChecks, h]

theorem acceptsB_false_of_chi2geo (c : CutsContainer) (o : OutputContainer)
    (h : ¬ o.chi2_geo ≤ c.cut_chi2_geo) : acceptsB c o = false := by
  simp [acceptsB, cutChecks, h]

/-- Claim C5: on numerically degenerate geometry (near-parallel daughter
tracks, zero-length momenta, singular combined covariance) the pair
evaluation performs no division by the near-zero denominator: it produces a
defined-but-extreme discriminator value which the cut comparison rejects
whenever the corresponding threshold lies below the extreme fallback. -/
theorem degenerate_geometry_rejected (pv : KFVertex) (i j : ℕ) (t1 t2 : KFPTrack)
    (c : CutsContainer) (hdeg : pcaDenom t1 t2 < eps ∨ t1.cov + t2.cov < eps)
    (hcd : c.cut_distance < extremeDist) (hcg : c.cut_chi2_geo < extremeDist) :
    ((evalPair pv i j t1 t2).distance = extremeDist ∨
      (evalPair pv i j t1 t2).chi2_geo = extremeDist) ∧
    acceptsB c (evalPair pv i j t1 t2) = false := by
  by_cases hp : pcaDenom t1 t2 < eps
  · have hd : (evalPair pv i j t1 t2).distance = extremeDist := by
      unfold evalPair CalculateParamsInPCA
      rw [if_pos hp]
    refine ⟨Or.inl hd, acceptsB_false_of_distance c _ ?_⟩
    rw [hd]
    exact not_le.mpr hcd
  · rcases hdeg with h | hcov
    · exact absurd h hp
    have hg : (evalPair pv i j t1 t2).chi2_geo = extremeDist := by
      unfold evalPair CalculateParamsInPCA
      rw [if_neg hp]
      show CalculateChi2Geo _ _ t1.cov t2.cov = extremeDist
      unfold CalculateChi2Geo
      rw [if_pos hcov]
    refine ⟨Or.inr hg, acceptsB_false_of_chi2geo c _ ?_⟩
    rw [hg]
    exact not_le.mpr hcg

/-- Claim C6: the two `Init` entry points are equivalent; initializing from a
pre-packaged `InputContainer` leaves the finder in exactly the state produced
by initializing from the raw track collection and primary vertex, with the
same stored tracks, primary vertex and derived Track Index. -/
theorem init_overloads_equivalent (s : SimpleFinder) (input : InputContainer) :
    InitFromContainer s input = Init s input.tracks input.pv ∧
    (InitFromContainer s input).tracks_ = input.tracks ∧
    (InitFromContainer s input).prim_vx_ = input.pv ∧
    (InitFromContainer s input).trIndex_ = sortTracksIndex input.tracks :=
  ⟨rfl, rfl, rfl, rfl⟩

/-- Claim C7: loosening the Cut Set (every threshold moved weakly in the
admitting direction, which subsumes loosening any single threshold) never
removes a previously accepted candidate from the `FindParticles` output. -/
theorem cut_loosening_monotone (s : SimpleFinder) (d : DecayContainer)
    (c c' : CutsContainer) (s1 s2 : SimpleFinder)
    (hd : s.decay_ = some d) (hc : s.cuts_ = some c) (hl : LooserCuts c c')
    (h1 : FindParticles s = Except.ok s1)
    (h2 : FindParticles (SetCuts s c') = Except.ok s2) :
    ∀ o ∈ GetMotherCandidates s1, o ∈ GetMotherCandidates s2 := by
  have e1 := findParticles_eq_ok s d c hd hc
  rw [h1] at e1
  have e2 := findParticles_eq_ok (SetCuts s c') d c' (by simpa [SetCuts] using hd) rfl
  rw [h2] at e2
  have hs1 := Except.ok.inj e1
  have hs2 := Except.ok.inj e2
  intro o ho
  rw [hs1] at ho
  rw [hs2]
  simp only [GetMotherCandidates] at ho ⊢
  rw [List.mem_append] at ho ⊢
  rcases ho with ho | ho
  · exact Or.inl ho
  · right
    rw [mem_findCandidates] at ho ⊢
    obtain ⟨i, hi, j, hj, heq, ha⟩ := ho
    exact ⟨i, hi, j, hj, heq, acceptsB_mono c c' _ hl ha⟩

theorem flatMap_const_nil (l : List ℕ) :
    l.flatMap (fun _ => ([] : List OutputContainer)) = [] := by
  induction l <;> simp [*]

/-- Claim C9: an event with no track of a species required by the Decay
Definition makes the `FindParticles` pass complete without a failure signal
and append no output record: the state is returned unchanged. -/
theorem empty_species_yields_ok (s : SimpleFinder) (d : DecayContainer) (c : CutsContainer)
    (hd : s.decay_ = some d) (hc : s.cuts_ = some c)
    (hb : trIndexGet s.trIndex_ d.species_first = [] ∨
          trIndexGet s.trIndex_ d.species_second = []) :
    FindParticles s = Except.ok s ∧ GetMotherCandidates s = s.vec_mother_ := by
  have hfc : findCandidates s.tracks_ s.prim_vx_ s.trIndex_ d c = [] := by
    rcases hb with h | h
    · simp [findCandidates, h]
    · simp [findCandidates, h, flatMap_const_nil]
  have hok := findParticles_eq_ok s d c hd hc
  rw [hfc] at hok
  have hself : ({ s with vec_mother_ := s.vec_mother_ ++ [] } : SimpleFinder) = s := by
    rw [List.append_nil]
  rw [hself] at hok
  exact ⟨hok, rfl⟩

/-- Claim C10: `SetCuts` modifies only the stored Cut Set and `SetDecay`
modifies only the stored Decay Definition; the track collection, primary
vertex, Track Index, debug fields and accumulated candidate list are all
unchanged by either call. -/
theorem setters_frame (s : SimpleFinder) (c : CutsContainer) (d : DecayContainer) :
    (SetCuts s c).tracks_ = s.tracks_ ∧ (SetCuts s c).prim_vx_ = s.prim_vx_ ∧
    (SetCuts s c).trIndex_ = s.trIndex_ ∧ (SetCuts s c).decay_ = s.decay_ ∧
    (SetCuts s c).mass_ = s.mass_ ∧ (SetCuts s c).vec_mass_ = s.vec_mass_ ∧
    (SetCuts s c).vec_mother_ = s.vec_mother_ ∧ (SetCuts s c).cuts_ = some c ∧
    (SetDecay s d).tracks_ = s.tracks_ ∧ (SetDecay s d).prim_vx_ = s.prim_vx_ ∧
    (SetDecay s d).trIndex_ = s.trIndex_ ∧ (SetDecay s d).cuts_ = s.cuts_ ∧
    (SetDecay s d).mass_ = s.mass_ ∧ (SetDecay s d).vec_mass_ = s.vec_mass_ ∧
    (SetDecay s d).vec_mother_ = s.vec_mother_ ∧ (SetDecay s d).decay_ = some d :=
  ⟨rfl, rfl, rfl, rfl, rfl, rfl, rfl, rfl, rfl, rfl, rfl, rfl, rfl, rfl, rfl, rfl⟩

attribute [local semireducible] Rat.add Rat.mul Rat.inv Rat.sub in
theorem findParticles_accepts_iff_cuts_witness :
    (out0 ∈ GetMotherCandidates { finder0 with vec_mother_ := [out0] }) ∧
    acceptsB cuts0 out0 = (cutChecks cuts0 out0).all id := by
  have h := findParticles_accepts_iff_cuts finder0 decay0 cuts0
    { finder0 with vec_mother_ := [out0] } rfl rfl (by rfl)
  refine ⟨?_, h.2 out0 (cutChecks cuts0 out0) (List.Perm.refl _)⟩
  exact (h.1 out0).mpr (Or.inr ⟨0, by decide, 1, by decide, by rfl, by rfl⟩)

theorem findParticles_deterministic_witness :
    (FindParticles finder0).map GetMotherCandidates =
      (FindParticles { finder0 with mass_ := 5 }).map GetMotherCandidates :=
  findParticles_deterministic finder0 { finder0 with mass_ := 5 } rfl rfl rfl rfl rfl rfl

theorem sortTracks_index_partition_witness :
    (trIndexGet (SortTracks finder2).trIndex_ ⟨0, by decide⟩).Nodup ∧
    (⟨0, by decide⟩ : Fin kNumberOfTrackTypes) = ⟨0, by decide⟩ := by
  refine ⟨(sortTracks_index_partition finder2).1 ⟨0, by decide⟩, ?_⟩
  exact (sortTracks_index_partition finder2).2.2 0 ⟨0, by decide⟩ ⟨0, by decide⟩
    (by decide) (by decide)

theorem findParticles_unconfigured_fails_witness :
    FindParticles finder2 = Except.error configAbsentMsg ∧
    FindParticles finder2 ≠ Except.ok finder2 := by
  have h := findParticles_unconfigured_fails finder2 (Or.inl rfl)
  exact ⟨h.1, h.2 finder2⟩

attribute [local semireducible] Rat.add Rat.mul Rat.inv Rat.sub in
theorem degenerate_geometry_rejected_witness :
    ((evalPair pv0 0 1 trackP trackR).distance = extremeDist ∨
      (evalPair pv0 0 1 trackP trackR).chi2_geo = extremeDist) ∧
    acceptsB cuts0 (evalPair pv0 0 1 trackP trackR) = false :=
  degenerate_geometry_rejected pv0 0 1 trackP trackR cuts0
    (Or.inl (by decide)) (by decide) (by decide)

attribute [local semireducible] Rat.add Rat.mul Rat.inv Rat.sub in
theorem cut_loosening_monotone_witness :
    out0 ∈ GetMotherCandidates { SetCuts finder0 cuts0 with vec_mother_ := [out0] } :=
  cut_loosening_monotone finder0 decay0 cuts0 cuts0
    { finder0 with vec_mother_ := [out0] }
    { SetCuts finder0 cuts0 with vec_mother_ := [out0] }
    rfl rfl ⟨le_refl _, le_refl _, le_refl _, le_refl _, le_refl _, le_refl _⟩
    (by rfl) (by rfl) out0 (by decide)

theorem empty_species_yields_ok_witness :
    FindParticles finder1 = Except.ok finder1 ∧ GetMotherCandidates finder1 = [] := by
  have h := empty_species_yields_ok finder1 decay0 cuts0 rfl rfl (Or.inl (by decide))
  exact ⟨h.1, h.2.trans rfl⟩
